import Mathlib

/-!
Verification of the brian-discord-bot repository against its specification.

The Python source is shallowly embedded: pure helpers become Lean functions,
database/API effects become explicit state passing plus an action trace, and
Python `int` values (all non-negative in the verified paths) become `Nat`.
-/

set_option maxRecDepth 4000

/-! ## Decimal rendering of integers (Python `str(int)` / f-string rendering)

`natToDigitsGo` is fuel-indexed structural recursion so that it reduces in the
kernel; `natRepr n` calls it with fuel `n + 1`, which is always sufficient. -/

def natToDigitsGo : Nat → Nat → List Char → List Char
  | 0, _, acc => acc
  | fuel + 1, n, acc =>
    if n = 0 then acc else natToDigitsGo fuel (n / 10) (Nat.digitChar (n % 10) :: acc)

def natRepr (n : Nat) : String :=
  if n = 0 then "0" else String.mk (natToDigitsGo (n + 1) n [])

/-- Python `int(...)` applied to a string of decimal digit characters. -/
def digitsToNat (l : List Char) : Nat :=
  l.foldl (fun a c => 10 * a + (c.toNat - 48)) 0

/-! ## utils/role_timers.py : `parse_duration` -/

/-- The loop body of `parse_duration` (utils/role_timers.py): left-to-right
scan accumulating digits in `cur`, spending the buffer on each of the unit
letters d/h/m/s, skipping every other character, and adding a trailing digit
buffer as raw seconds at the end of the input. -/
def parseDurationGo : Nat → List Char → List Char → Nat
  | total, cur, [] => if cur = [] then total else total + digitsToNat cur
  | total, cur, c :: rest =>
    if c.isDigit then parseDurationGo total (cur ++ [c]) rest
    else if c = 'd' ∧ cur ≠ [] then
      parseDurationGo (total + digitsToNat cur * 86400) [] rest
    else if c = 'h' ∧ cur ≠ [] then
      parseDurationGo (total + digitsToNat cur * 3600) [] rest
    else if c = 'm' ∧ cur ≠ [] then
      parseDurationGo (total + digitsToNat cur * 60) [] rest
    else if c = 's' ∧ cur ≠ [] then
      parseDurationGo (total + digitsToNat cur) [] rest
    else parseDurationGo total cur rest

/-- `parse_duration` from utils/role_timers.py: iterates over
`duration_str.lower()`. -/
def parse_duration (s : String) : Nat :=
  parseDurationGo 0 [] (s.data.map Char.toLower)

/-! ## utils/role_timers.py : `format_duration` -/

/-- Python `", ".join(parts)`. -/
def joinComma : List String → String
  | [] => ""
  | [p] => p
  | p :: q :: rest => p ++ ", " ++ joinComma (q :: rest)

/-- `format_duration` from utils/role_timers.py: divmod chain by 86400, 3600,
60; day/hour/minute parts appended when positive, pluralized; a seconds part
only when positive and no other part was produced. -/
def format_duration (seconds : Nat) : String :=
  let days := seconds / 86400
  let remainder := seconds % 86400
  let hours := remainder / 3600
  let remainder2 := remainder % 3600
  let minutes := remainder2 / 60
  let secs := remainder2 % 60
  let parts : List String := []
  let parts := if days > 0 then
    parts ++ [natRepr days ++ " day" ++ (if days ≠ 1 then "s" else "")] else parts
  let parts := if hours > 0 then
    parts ++ [natRepr hours ++ " hour" ++ (if hours ≠ 1 then "s" else "")] else parts
  let parts := if minutes > 0 then
    parts ++ [natRepr minutes ++ " minute" ++ (if minutes ≠ 1 then "s" else "")] else parts
  let parts := if secs > 0 ∧ parts = [] then
    parts ++ [natRepr secs ++ " second" ++ (if secs ≠ 1 then "s" else "")] else parts
  joinComma parts

/-! ## cogs/admin.py : `format_timespan` -/

/-- `format_timespan` from cogs/admin.py: divmod chain by 60, 60, 24 (the
other direction), then the same part-building code as `format_duration`. -/
def format_timespan (seconds : Nat) : String :=
  let minutes0 := seconds / 60
  let secs := seconds % 60
  let hours0 := minutes0 / 60
  let minutes := minutes0 % 60
  let days := hours0 / 24
  let hours := hours0 % 24
  let parts : List String := []
  let parts := if days > 0 then
    parts ++ [natRepr days ++ " day" ++ (if days ≠ 1 then "s" else "")] else parts
  let parts := if hours > 0 then
    parts ++ [natRepr hours ++ " hour" ++ (if hours ≠ 1 then "s" else "")] else parts
  let parts := if minutes > 0 then
    parts ++ [natRepr minutes ++ " minute" ++ (if minutes ≠ 1 then "s" else "")] else parts
  let parts := if secs > 0 ∧ parts = [] then
    parts ++ [natRepr secs ++ " second" ++ (if secs ≠ 1 then "s" else "")] else parts
  joinComma parts

/-- The common part-building tail of `format_duration` and `format_timespan`
(their source code for this part is token-identical), abstracted over the four
already-computed components; used only by proofs, via the `rfl` lemmas below. -/
def formatCore (days hours minutes secs : Nat) : String :=
  let parts : List String := []
  let parts := if days > 0 then
    parts ++ [natRepr days ++ " day" ++ (if days ≠ 1 then "s" else "")] else parts
  let parts := if hours > 0 then
    parts ++ [natRepr hours ++ " hour" ++ (if hours ≠ 1 then "s" else "")] else parts
  let parts := if minutes > 0 then
    parts ++ [natRepr minutes ++ " minute" ++ (if minutes ≠ 1 then "s" else "")] else parts
  let parts := if secs > 0 ∧ parts = [] then
    parts ++ [natRepr secs ++ " second" ++ (if secs ≠ 1 then "s" else "")] else parts
  joinComma parts

/-! ## utils/staff_utils.py : `format_member_display`

The function reads only `member.mention` and `member.display_name`; it is
embedded as a function of those two strings.  The anchored regex
`^\s*\[[^\]]+\]\s*(\[[^\]]+\]\s*\[[^\]]+\])$` is deterministic (no
backtracking can succeed where the greedy scan fails, since `[^\]]+` stops at
the first `]` and `\s*` stops at the first non-space), so it is embedded as
the straight-line scanner `bracketGroup` returning the capture group. -/

/-- Python `str.strip()`: drop leading and trailing whitespace. -/
def stripChars (l : List Char) : List Char :=
  ((l.dropWhile Char.isWhitespace).reverse.dropWhile Char.isWhitespace).reverse

/-- One `[^\]]+\]` tail of a bracket group (the opening `[` already
consumed); returns the remainder after the closing `]`, or none. -/
def chompBracket (l : List Char) : Option (List Char) :=
  let body := l.takeWhile (fun c => c != ']')
  if body = [] then none
  else
    match l.drop body.length with
    | ']' :: r => some r
    | _ => none

/-- The bracket pattern of `format_member_display`: on success returns the
characters of capture group 1, which runs from the second `[` to the end of
the string. -/
def bracketGroup (l : List Char) : Option (List Char) :=
  match l.dropWhile Char.isWhitespace with
  | '[' :: r =>
    match chompBracket r with
    | some r1 =>
      let g := r1.dropWhile Char.isWhitespace
      match g with
      | '[' :: r3 =>
        match chompBracket r3 with
        | some r4 =>
          match r4.dropWhile Char.isWhitespace with
          | '[' :: r6 =>
            match chompBracket r6 with
            | some [] => some g
            | _ => none
          | _ => none
        | none => none
      | _ => none
    | none => none
  | _ => none

/-- The separator scan of `format_member_display`: the first index at which
one of `|`, `/`, `[` occurs, mirroring the source's loop over the three
separators with `str.find` and a running minimum. -/
def firstSepIdx (l : List Char) : Option Nat :=
  [('|' : Char), '/', '['].foldl (fun acc sep =>
    match l.findIdx? (fun c => c == sep), acc with
    | some i, some j => if i < j then some i else some j
    | some i, none => some i
    | none, acc2 => acc2) none

/-- `format_member_display` from utils/staff_utils.py (the method of the same
name on StaffListings in cogs/staff_listings.py is line-for-line the same). -/
def format_member_display (mention displayName : String) : String :=
  match bracketGroup displayName.data with
  | some g => mention ++ " - " ++ String.mk (stripChars g)
  | none =>
    match firstSepIdx displayName.data with
    | some i =>
      let remaining := stripChars (displayName.data.drop i)
      let remaining2 :=
        match remaining with
        | c :: rest => if c = '|' ∨ c = '/' ∨ c = '[' then stripChars rest else c :: rest
        | [] => []
      if remaining2.any (fun c => c == '|' || c == '/' || c == '[') then
        mention ++ " - " ++ String.mk remaining2
      else mention ++ " - " ++ displayName
    | none => mention ++ " - " ++ displayName

/-! ## cogs/staff_listings.py : mid-level staff computation

Guild state is embedded as the list of members, each carrying a display name
and the roles they hold; `dept_role.members` is the sublist of members holding
the department role id.  The three leadership regexes
`f"Заведующий\\s+{short}"`, `f"Начальник\\s+{short}"` and
`f"Зам\\. Начальника\\s+{short}"` are all of the shape
literal-word, one-or-more whitespace, literal short code, anchored at the
start by `re.match`; since the short codes do not begin with whitespace the
greedy scan is equivalent to the regex. -/

structure DiscordRole where
  id : Nat
  name : String
deriving DecidableEq

structure DiscordMember where
  id : Nat
  display_name : String
  roles : List DiscordRole
deriving DecidableEq

/-- Python `str.lower()`. -/
def strLower (s : String) : String :=
  String.mk (s.data.map Char.toLower)

/-- `re.match` of an anchored pattern `word` `\s+` `short` against a role
name: the name starts with `word`, then one or more whitespace characters,
then `short`. -/
def matchWordShort (word short : String) (name : String) : Bool :=
  let l := name.data
  if l.take word.data.length = word.data then
    let r := l.drop word.data.length
    let sp := r.takeWhile Char.isWhitespace
    if sp = [] then false
    else (r.drop sp.length).take short.data.length = short.data
  else false

/-- A member holds one of the three leadership roles (curator, head, deputy
head) for the department with short code `short`. -/
def isLeaderFor (short : String) (m : DiscordMember) : Bool :=
  m.roles.any (fun r =>
    matchWordShort "Заведующий" short r.name
    || matchWordShort "Начальник" short r.name
    || matchWordShort "Зам. Начальника" short r.name)

/-- disnake `Role.members`: every guild member holding the role. -/
def roleMembers (guild : List DiscordMember) (roleId : Nat) : List DiscordMember :=
  guild.filter (fun m => m.roles.any (fun r => r.id == roleId))

/-- The ordering key used throughout staff listings:
`key=lambda m: m.display_name.lower()`. -/
def displayKeyLE (a b : DiscordMember) : Prop :=
  strLower a.display_name ≤ strLower b.display_name

instance : DecidableRel displayKeyLE := fun a b =>
  inferInstanceAs (Decidable (strLower a.display_name ≤ strLower b.display_name))

instance : IsTotal DiscordMember displayKeyLE :=
  ⟨fun a b => le_total (strLower a.display_name) (strLower b.display_name)⟩

instance : IsTrans DiscordMember displayKeyLE :=
  ⟨fun _ _ _ hab hbc => le_trans hab hbc⟩

/-- The member list rendered by
`StaffListings.create_department_mid_staff_embed`: members of the department
role that hold none of the three leadership roles, sorted case-insensitively
by display name (Python's sort is stable; only the resulting order matters
here). -/
def department_mid_staff (guild : List DiscordMember) (deptRoleId : Nat)
    (short : String) : List DiscordMember :=
  let deptMembers := roleMembers guild deptRoleId
  let mid_staff := deptMembers.filter (fun m => !isLeaderFor short m)
  List.insertionSort displayKeyLE mid_staff

/-! ## data/models/timed_role_model.py : the `timed_roles` table

Rows are embedded as records, the table as the list of rows in insertion
order plus the next auto-increment id.  Reads and writes go through explicit
state passing; platform (Discord) calls are collected in a trace. -/

structure TimedRoleRec where
  id : Nat
  guild_id : Nat
  user_id : Nat
  role_id : Nat
  expires_at : Nat
  added_by : Nat
  reason : Option String
  auto_remove : Bool
  notify_user : Bool
  notify_channel_id : Option Nat
  notify_role_ids : Option String
deriving DecidableEq

structure TimedRoleDb where
  rows : List TimedRoleRec
  nextId : Nat
deriving DecidableEq

/-- Python `",".join(str(i) for i in ids)`. -/
def joinCommaIds : List Nat → String
  | [] => ""
  | [i] => natRepr i
  | i :: j :: rest => natRepr i ++ "," ++ joinCommaIds (j :: rest)

namespace TimedRole

/-- `TimedRole.get_active_roles_for_user`: rows of this user whose expiry is
strictly in the future, ordered by soonest expiry first (`ORDER BY expires_at
ASC`; SQL row order on ties is unspecified, any sort is a faithful reading). -/
def get_active_roles_for_user (db : TimedRoleDb) (userId now : Nat) : List TimedRoleRec :=
  List.insertionSort (fun a b => a.expires_at ≤ b.expires_at)
    (db.rows.filter (fun r => r.user_id == userId && now < r.expires_at))

/-- `TimedRole.add_timed_role` (the model-level insert): computes
`expires_at = now + duration`, serializes the notify-role list (Python
`if notify_role_ids:` treats both `None` and the empty list as absent),
inserts the row and reports the new row id (`last_insert_rowid`). -/
def model_add_timed_role (db : TimedRoleDb) (guildId userId roleId durationSeconds addedBy : Nat)
    (reason : Option String) (auto_remove notify_user : Bool)
    (notifyChannelId : Option Nat) (notifyRoleIds : Option (List Nat)) (now : Nat) :
    TimedRoleDb × Nat :=
  let expires_at := now + durationSeconds
  let notifyRolesStr : Option String :=
    match notifyRoleIds with
    | some (x :: xs) => some (joinCommaIds (x :: xs))
    | _ => none
  let row : TimedRoleRec :=
    { id := db.nextId, guild_id := guildId, user_id := userId, role_id := roleId,
      expires_at := expires_at, added_by := addedBy, reason := reason,
      auto_remove := auto_remove, notify_user := notify_user,
      notify_channel_id := notifyChannelId, notify_role_ids := notifyRolesStr }
  ({ rows := db.rows ++ [row], nextId := db.nextId + 1 }, db.nextId)

end TimedRole

/-! ## utils/role_timers.py : `add_timed_role` (grant with side effects) -/

/-- A role as seen by the hierarchy check.  disnake orders the guild's roles
totally (by position, ties broken by id); `rank` is the role's place in that
total order, so the source's `role >= member.guild.me.top_role` becomes a
`rank` comparison. -/
structure RoleInfo where
  id : Nat
  name : String
  rank : Nat
deriving DecidableEq

structure MemberInfo where
  id : Nat
  guild_id : Nat
  role_ids : List Nat
deriving DecidableEq

/-- Discord REST calls issued by `add_timed_role`. -/
inductive ApiCall
  | addRoles (memberId roleId : Nat) (reason : String)
deriving DecidableEq

structure GrantOutcome where
  db : TimedRoleDb
  calls : List ApiCall
  result : Except String Nat

/-- `add_timed_role` from utils/role_timers.py: reject a duplicate active
grant for the same (member, role); reject a role at or above the bot's top
role; otherwise assign the role if not already held (audit reason
`"Timed role: <reason>"`, where a missing reason renders as Python's
`None`), insert the tracking row, and return its id.  On a raised
`ValueError` nothing has been written and no API call has been made. -/
def add_timed_role (db : TimedRoleDb) (member : MemberInfo) (role : RoleInfo)
    (botTopRole : RoleInfo) (durationSeconds addedBy : Nat) (reason : Option String)
    (auto_remove notify_user : Bool) (notifyChannelId : Option Nat)
    (notifyRoleIds : Option (List Nat)) (now : Nat) : GrantOutcome :=
  let existing_roles := TimedRole.get_active_roles_for_user db member.id now
  if existing_roles.any (fun r => r.role_id == role.id) then
    { db := db, calls := [],
      result := Except.error
        ("This member already has '" ++ role.name ++ "' as an active timed role.") }
  else if botTopRole.rank ≤ role.rank then
    { db := db, calls := [],
      result := Except.error
        ("Cannot manage the role '" ++ role.name
          ++ "' due to role hierarchy. Move the bot's role above this role.") }
  else
    let calls :=
      if member.role_ids.contains role.id then []
      else [ApiCall.addRoles member.id role.id
        ("Timed role: " ++ (match reason with | some s => s | none => "None"))]
    let inserted := TimedRole.model_add_timed_role db member.guild_id member.id role.id
      durationSeconds addedBy reason auto_remove notify_user notifyChannelId notifyRoleIds now
    { db := inserted.1, calls := calls, result := Except.ok inserted.2 }

/-- The §3 invariant: no two rows are simultaneously active for the same
(server, member, role) triple. -/
def ActiveDupFree (rows : List TimedRoleRec) (now : Nat) : Prop :=
  rows.Pairwise (fun r1 r2 => ¬(now < r1.expires_at ∧ now < r2.expires_at
    ∧ r1.guild_id = r2.guild_id ∧ r1.user_id = r2.user_id ∧ r1.role_id = r2.role_id))

instance (rows : List TimedRoleRec) (now : Nat) : Decidable (ActiveDupFree rows now) := by
  unfold ActiveDupFree
  infer_instance

/-! ## cogs/role_timer.py : `RoleTimer._process_expired_role`

The Discord-side state this method consults is embedded as a small world
record (does the guild resolve, is the member still present, does the role
still exist, does the member still hold it, would a DM be delivered, is the
notify channel resolvable and writable); the method's effects are returned
as an ordered action trace.  Message payloads other than the audit reason
are elided; the two distinct channel posts (failed-DM warning, expiry
notice) are distinct constructors. -/

structure ExpiredWorld where
  guildExists : Bool
  memberExists : Bool
  roleExists : Bool
  memberHasRole : Bool
  dmDeliverable : Bool
  channelSendable : Bool
  roleName : String
deriving DecidableEq

inductive BotAction
  | removeRole (userId roleId : Nat) (reason : String)
  | dmUser (userId : Nat) (description : String)
  | channelDmFailedNote (channelId : Nat)
  | channelExpiryNotice (channelId : Nat)
  | deleteRecord (recId : Nat)
deriving DecidableEq

def process_expired_role (w : ExpiredWorld) (rec : TimedRoleRec) : List BotAction :=
  if !w.guildExists then [BotAction.deleteRecord rec.id]
  else if !w.memberExists then [BotAction.deleteRecord rec.id]
  else if !w.roleExists then [BotAction.deleteRecord rec.id]
  else
    let has_role := w.memberHasRole
    (if rec.auto_remove && has_role then
      [BotAction.removeRole rec.user_id rec.role_id "Timed role expired"] else [])
    ++ (if rec.notify_user then
        [BotAction.dmUser rec.user_id ("Your role **" ++ w.roleName ++ "** has "
          ++ (if rec.auto_remove && has_role then "been removed." else "expired."))]
        ++ (if !w.dmDeliverable then
              match rec.notify_channel_id with
              | some cid => if w.channelSendable then [BotAction.channelDmFailedNote cid] else []
              | none => []
            else [])
      else [])
    ++ (match rec.notify_channel_id with
        | some cid => if w.channelSendable then [BotAction.channelExpiryNotice cid] else []
        | none => [])
    ++ [BotAction.deleteRecord rec.id]

/-! ## cogs/error_handler.py : `ErrorHandler.on_slash_command_error`

The error taxonomy is embedded as one inductive per branch of the
isinstance chain; the branches for cooldown / no-DM / missing-permissions
are checked before the generic `CheckFailure` branch in the source, so the
`checkFailure` constructor stands for a check failure of none of those
subclasses, exactly as the listener distinguishes them.  `retry_after` is a
float rounded with `round()`; the embedded constructor carries the already
rounded integer.  Effects are an ordered action trace: ephemeral responses
and error-level log calls (the unhandled branch logs twice, the second call
being the formatted traceback). -/

inductive SlashErrKind
  | commandOnCooldown (retryAfterSeconds : Nat)
  | noPrivateMessage
  | missingPermissions (detail : String)
  | botMissingPermissions (detail : String)
  | forbidden
  | notFound
  | checkFailure
  | unhandled (detail : String)
deriving DecidableEq

/-- A command error as delivered to the listener: either bare, or wrapped
with the cause available as its `original` attribute. -/
inductive SlashErr
  | plain (e : SlashErrKind)
  | wrapped (e : SlashErrKind)
deriving DecidableEq

/-- `error = getattr(error, 'original', error)`. -/
def unwrapOriginal : SlashErr → SlashErrKind
  | .plain e => e
  | .wrapped e => e

inductive HandlerAction
  | respond (message : String) (ephemeral : Bool)
  | logError (withTrace : Bool)
deriving DecidableEq

def on_slash_command_error (hasOwnErrorHook responseDone : Bool) (err : SlashErr) :
    List HandlerAction :=
  if hasOwnErrorHook then []
  else
    match unwrapOriginal err with
    | .commandOnCooldown s =>
      [HandlerAction.respond ("This command is on cooldown. Please try again in "
        ++ (natRepr s ++ " seconds.")) true]
    | .noPrivateMessage =>
      [HandlerAction.respond "This command cannot be used in private messages." true]
    | .missingPermissions d =>
      [HandlerAction.respond
        ("You don't have the required permissions to use this command: " ++ d) true]
    | .botMissingPermissions d =>
      [HandlerAction.respond
        ("I don't have the required permissions to execute this command: " ++ d) true]
    | .forbidden =>
      [HandlerAction.respond
        "I don't have permission to perform this action. Please check my role permissions." true,
       HandlerAction.logError false]
    | .notFound =>
      [HandlerAction.respond
        ("The requested resource was not found. "
          ++ "This could be a channel, message, or user that no longer exists.") true]
    | .checkFailure =>
      [HandlerAction.respond "You don't have permission to use this command." true]
    | .unhandled _ =>
      [HandlerAction.logError false, HandlerAction.logError true]
      ++ (if responseDone then []
          else [HandlerAction.respond
            "An error occurred while executing this command. The error has been logged." true])

/-- Constructor tag, forgetting parameters; two errors of different kind have
different tags. -/
def SlashErrKind.tag : SlashErrKind → Nat
  | .commandOnCooldown _ => 0
  | .noPrivateMessage => 1
  | .missingPermissions _ => 2
  | .botMissingPermissions _ => 3
  | .forbidden => 4
  | .notFound => 5
  | .checkFailure => 6
  | .unhandled _ => 7

/-- The fixed part of each branch's user-facing message (everything before
any interpolated parameter). -/
def msgHead : SlashErrKind → String
  | .commandOnCooldown _ => "This command is on cooldown. Please try again in "
  | .noPrivateMessage => "This command cannot be used in private messages."
  | .missingPermissions _ => "You don't have the required permissions to use this command: "
  | .botMissingPermissions _ => "I don't have the required permissions to execute this command: "
  | .forbidden => "I don't have permission to perform this action. Please check my role permissions."
  | .notFound =>
    "The requested resource was not found. This could be a channel, message, or user that no longer exists."
  | .checkFailure => "You don't have permission to use this command."
  | .unhandled _ => "An error occurred while executing this command. The error has been logged."

/-- The interpolated part of each branch's user-facing message. -/
def msgTail : SlashErrKind → String
  | .commandOnCooldown s => natRepr s ++ " seconds."
  | .missingPermissions d => d
  | .botMissingPermissions d => d
  | _ => ""

/-- The (first) user-facing message of an action trace. -/
def respondMessage? (acts : List HandlerAction) : Option String :=
  acts.findSome? (fun a => match a with | .respond m _ => some m | _ => none)

/-! ## cogs/role_timer.py and cogs/staff_listings.py : background schedules

The two `@tasks.loop(minutes=30)` declarations, their readiness-deferring
`before_loop` hooks, and the `cog_unload` methods are embedded as static
facts about the two cogs.  Calling `.cancel()` is only meaningful on a
`tasks.loop` object; on a plain coroutine method the attribute lookup raises
`AttributeError`, which `cancelAttr` models as an error result. -/

structure TaskLoopDecl where
  periodMinutes : Nat
  waitsUntilReady : Bool
deriving DecidableEq

/-- `RoleTimer.role_check_task`: `@tasks.loop(minutes=30)`, with a
`before_loop` that awaits `bot.wait_until_ready()`. -/
def role_check_task : TaskLoopDecl := { periodMinutes := 30, waitsUntilReady := true }

/-- `StaffListings.update_staff_listings`: `@tasks.loop(minutes=30)`, with a
`before_loop` that awaits `bot.wait_until_ready()`. -/
def update_staff_listings : TaskLoopDecl := { periodMinutes := 30, waitsUntilReady := true }

/-- The attributes of the RoleTimer cog that its lifecycle code touches. -/
inductive RoleTimerAttr
  | role_check_task
  | check_timed_roles
  | daily_check_task
deriving DecidableEq

def RoleTimerAttr.isTaskLoop : RoleTimerAttr → Bool
  | .role_check_task => true
  | _ => false

inductive StaffListingsAttr
  | update_staff_listings
  | update_lock
  | permission_errors
deriving DecidableEq

def StaffListingsAttr.isTaskLoop : StaffListingsAttr → Bool
  | .update_staff_listings => true
  | _ => false

/-- `.cancel()` on a cog attribute: succeeds on a `tasks.loop`, raises
`AttributeError` on anything else. -/
def cancelAttr (isTaskLoop : Bool) : Except String Unit :=
  if isTaskLoop then Except.ok () else Except.error "AttributeError"

/-- The attribute `RoleTimer.cog_unload` calls `.cancel()` on:
`self.check_timed_roles` (cogs/role_timer.py line 24) — the plain sweep
coroutine, not the `role_check_task` loop. -/
def RoleTimer.unload_cancel_target : RoleTimerAttr := RoleTimerAttr.check_timed_roles

def RoleTimer.cog_unload : Except String Unit :=
  cancelAttr RoleTimer.unload_cancel_target.isTaskLoop

/-- `RoleTimer.__init__` only sets `daily_check_task = None`; neither it nor
any other code in the repository calls `role_check_task.start()` (the
`__init__` comment defers to an `on_ready` that does not exist in the cog). -/
def RoleTimer.loop_started : Bool := false

/-- The attribute `StaffListings.cog_unload` calls `.cancel()` on:
`self.update_staff_listings` (cogs/staff_listings.py line 25) — the loop. -/
def StaffListings.unload_cancel_target : StaffListingsAttr :=
  StaffListingsAttr.update_staff_listings

def StaffListings.cog_unload : Except String Unit :=
  cancelAttr StaffListings.unload_cancel_target.isTaskLoop

/-- `StaffListings.__init__` calls `self.update_staff_listings.start()`. -/
def StaffListings.loop_started : Bool := true

/-- Digits-value of a rendered number, following the recursion of
`natToDigitsGo`; proof-only helper. -/
def pdVal (a : Nat) : Nat → Nat
  | 0 => a
  | n + 1 => 10 * pdVal a ((n + 1) / 10) + (n + 1) % 10
  decreasing_by exact Nat.div_lt_self (Nat.succ_pos n) (by omega)

/-- `ChunkVal p v`: parsing the characters of `p` from an empty digit buffer
adds exactly `v` to the running total and leaves the buffer empty. -/
def ChunkVal (p : String) (v : Nat) : Prop :=
  ∀ t rest, parseDurationGo t [] (p.data ++ rest) = parseDurationGo (t + v) [] rest

theorem format_duration_eq_core (n : Nat) :
    format_duration n =
      formatCore (n / 86400) (n % 86400 / 3600) (n % 86400 % 3600 / 60) (n % 86400 % 3600 % 60) :=
  rfl

theorem format_timespan_eq_core (n : Nat) :
    format_timespan n =
      formatCore (n / 60 / 60 / 24) (n / 60 / 60 % 24) (n / 60 % 60) (n % 60) :=
  rfl

/-! ## Correctness of the decimal rendering -/

theorem pdVal_zero (n : Nat) : pdVal 0 n = n := by
  induction n using Nat.strong_induction_on with
  | _ n ih =>
    match n with
    | 0 => simp [pdVal]
    | m + 1 =>
      rw [pdVal]
      rw [ih ((m + 1) / 10) (Nat.div_lt_self (Nat.succ_pos m) (by omega))]
      omega

theorem pdVal_eq (a n : Nat) (hn : n ≠ 0) : pdVal a n = 10 * pdVal a (n / 10) + n % 10 := by
  rcases Nat.exists_eq_succ_of_ne_zero hn with ⟨m, rfl⟩
  rw [pdVal]

theorem digitChar_toNat (d : Nat) (hd : d < 10) : (Nat.digitChar d).toNat = 48 + d := by
  interval_cases d <;> rfl

theorem natToDigitsGo_foldl (fuel : Nat) : ∀ n acc a, n < fuel →
    (natToDigitsGo fuel n acc).foldl (fun x c => 10 * x + (c.toNat - 48)) a
      = acc.foldl (fun x c => 10 * x + (c.toNat - 48)) (pdVal a n) := by
  induction fuel with
  | zero => intro n acc a h; omega
  | succ fuel ih =>
    intro n acc a h
    by_cases hn : n = 0
    · subst hn; simp [natToDigitsGo, pdVal]
    · have hstep : natToDigitsGo (fuel + 1) n acc
          = natToDigitsGo fuel (n / 10) (Nat.digitChar (n % 10) :: acc) := by
        simp [natToDigitsGo, hn]
      rw [hstep, ih (n / 10) _ a
        (by have hlt : n / 10 < n := Nat.div_lt_self (Nat.pos_of_ne_zero hn) (by omega); omega)]
      simp only [List.foldl_cons]
      congr 1
      rw [digitChar_toNat (n % 10) (Nat.mod_lt _ (by omega))]
      rw [pdVal_eq a n hn]
      omega

theorem natToDigitsGo_forall (P : Char → Prop) (hP : ∀ d, d < 10 → P (Nat.digitChar d))
    (fuel : Nat) : ∀ n acc, (∀ c ∈ acc, P c) → ∀ c ∈ natToDigitsGo fuel n acc, P c := by
  induction fuel with
  | zero => intro n acc hacc; exact hacc
  | succ fuel ih =>
    intro n acc hacc
    by_cases hn : n = 0
    · subst hn; simpa [natToDigitsGo] using hacc
    · have hstep : natToDigitsGo (fuel + 1) n acc
          = natToDigitsGo fuel (n / 10) (Nat.digitChar (n % 10) :: acc) := by
        simp [natToDigitsGo, hn]
      rw [hstep]
      refine ih (n / 10) _ ?_
      intro c hc
      rcases List.mem_cons.mp hc with h | h
      · subst h; exact hP _ (Nat.mod_lt _ (by omega))
      · exact hacc c h

theorem natToDigitsGo_length (fuel : Nat) : ∀ n acc,
    acc.length ≤ (natToDigitsGo fuel n acc).length := by
  induction fuel with
  | zero => intro n acc; simp [natToDigitsGo]
  | succ fuel ih =>
    intro n acc
    by_cases hn : n = 0
    · simp [natToDigitsGo, hn]
    · have hstep : natToDigitsGo (fuel + 1) n acc
          = natToDigitsGo fuel (n / 10) (Nat.digitChar (n % 10) :: acc) := by
        simp [natToDigitsGo, hn]
      rw [hstep]
      have := ih (n / 10) (Nat.digitChar (n % 10) :: acc)
      simp at this
      omega

theorem natRepr_ne_nil (n : Nat) : (natRepr n).data ≠ [] := by
  unfold natRepr
  by_cases hn : n = 0
  · simp [hn]
  · simp only [hn, if_false]
    intro hcontra
    have h1 : natToDigitsGo (n + 1) n []
        = natToDigitsGo n (n / 10) [Nat.digitChar (n % 10)] := by
      simp [natToDigitsGo, hn]
    have h2 := natToDigitsGo_length n (n / 10) [Nat.digitChar (n % 10)]
    have h3 : natToDigitsGo (n + 1) n [] = [] := hcontra
    rw [h1] at h3
    rw [h3] at h2
    simp at h2

theorem natRepr_digits (n : Nat) : ∀ c ∈ (natRepr n).data, c.isDigit = true := by
  unfold natRepr
  by_cases hn : n = 0
  · simp [hn]
  · simp only [hn, if_false]
    exact natToDigitsGo_forall (fun c => c.isDigit = true)
      (by intro d hd; interval_cases d <;> decide) (n + 1) n [] (by simp)

theorem natRepr_toLower (n : Nat) : ∀ c ∈ (natRepr n).data, c.toLower = c := by
  unfold natRepr
  by_cases hn : n = 0
  · simp [hn]
  · simp only [hn, if_false]
    exact natToDigitsGo_forall (fun c => c.toLower = c)
      (by intro d hd; interval_cases d <;> decide) (n + 1) n [] (by simp)

theorem digitsToNat_natRepr (n : Nat) : digitsToNat (natRepr n).data = n := by
  unfold natRepr digitsToNat
  by_cases hn : n = 0
  · simp [hn]
  · simp only [hn, if_false]
    have := natToDigitsGo_foldl (n + 1) n [] 0 (by omega)
    simpa [pdVal_zero] using this

/-! ## Stepping lemmas for `parseDurationGo` -/

theorem parseGo_digit (t : Nat) (cur : List Char) (c : Char) (rest : List Char)
    (h : c.isDigit = true) :
    parseDurationGo t cur (c :: rest) = parseDurationGo t (cur ++ [c]) rest := by
  simp [parseDurationGo, h]

theorem parseGo_absorb (t : Nat) (ds : List Char) : ∀ (cur rest : List Char),
    (∀ c ∈ ds, c.isDigit = true) →
    parseDurationGo t cur (ds ++ rest) = parseDurationGo t (cur ++ ds) rest := by
  induction ds with
  | nil => intro cur rest _; simp
  | cons c ds ih =>
    intro cur rest h
    rw [List.cons_append, parseGo_digit t cur c _ (h c (by simp))]
    rw [ih (cur ++ [c]) rest (fun x hx => h x (by simp [hx]))]
    simp

theorem parseGo_skip (t : Nat) (cur : List Char) (c : Char) (rest : List Char)
    (hd : c.isDigit = false) (h1 : c ≠ 'd') (h2 : c ≠ 'h') (h3 : c ≠ 'm') (h4 : c ≠ 's') :
    parseDurationGo t cur (c :: rest) = parseDurationGo t cur rest := by
  simp [parseDurationGo, hd, h1, h2, h3, h4]

theorem parseGo_skip_empty (t : Nat) (c : Char) (rest : List Char)
    (hd : c.isDigit = false) :
    parseDurationGo t [] (c :: rest) = parseDurationGo t [] rest := by
  simp [parseDurationGo, hd]

theorem parseGo_skipList_empty (t : Nat) (junk : List Char) : ∀ rest,
    (∀ c ∈ junk, c.isDigit = false) →
    parseDurationGo t [] (junk ++ rest) = parseDurationGo t [] rest := by
  induction junk with
  | nil => intro rest _; simp
  | cons c junk ih =>
    intro rest h
    rw [List.cons_append, parseGo_skip_empty t c _ (h c (by simp))]
    exact ih rest (fun x hx => h x (by simp [hx]))

theorem parseGo_unit_d (t : Nat) (cur rest : List Char) (h : cur ≠ []) :
    parseDurationGo t cur ('d' :: rest)
      = parseDurationGo (t + digitsToNat cur * 86400) [] rest := by
  simp [parseDurationGo, h]

theorem parseGo_unit_h (t : Nat) (cur rest : List Char) (h : cur ≠ []) :
    parseDurationGo t cur ('h' :: rest)
      = parseDurationGo (t + digitsToNat cur * 3600) [] rest := by
  simp [parseDurationGo, h]

theorem parseGo_unit_m (t : Nat) (cur rest : List Char) (h : cur ≠ []) :
    parseDurationGo t cur ('m' :: rest)
      = parseDurationGo (t + digitsToNat cur * 60) [] rest := by
  simp [parseDurationGo, h]

theorem parseGo_unit_s (t : Nat) (cur rest : List Char) (h : cur ≠ []) :
    parseDurationGo t cur ('s' :: rest)
      = parseDurationGo (t + digitsToNat cur) [] rest := by
  simp [parseDurationGo, h]

/-! ## Parsing the output of the formatter -/

theorem map_toLower_self (l : List Char) (h : ∀ c ∈ l, c.toLower = c) :
    l.map Char.toLower = l := by
  induction l with
  | nil => rfl
  | cons c l ih =>
    simp only [List.map_cons]
    rw [h c (by simp), ih (fun x hx => h x (by simp [hx]))]

theorem joinComma_forall (P : Char → Prop) (hc : P ',') (hs : P ' ') :
    ∀ ps : List String, (∀ p ∈ ps, ∀ c ∈ p.data, P c) → ∀ c ∈ (joinComma ps).data, P c := by
  intro ps
  induction ps with
  | nil => intro _ c hmem; exact absurd hmem (List.not_mem_nil c)
  | cons p ps ih =>
    cases ps with
    | nil => intro h c hmem; exact h p (by simp) c hmem
    | cons q qs =>
      intro h c hmem
      simp only [joinComma, String.data_append,
        show (", " : String).data = [',', ' '] from rfl] at hmem
      rcases List.mem_append.mp hmem with h1 | h2
      · rcases List.mem_append.mp h1 with h3 | h4
        · exact h p (by simp) c h3
        · simp only [List.mem_cons, List.not_mem_nil, or_false] at h4
          rcases h4 with rfl | rfl
          · exact hc
          · exact hs
      · exact ih (fun r hr x hx => h r (by simp [List.mem_cons] at hr ⊢; tauto) x hx) c h2

theorem joinComma_chunks : ∀ ps : List (String × Nat),
    (∀ pv ∈ ps, ChunkVal pv.1 pv.2) →
    ∀ t, parseDurationGo t [] (joinComma (ps.map Prod.fst)).data
      = t + (ps.map Prod.snd).sum := by
  intro ps
  induction ps with
  | nil =>
    intro _ t
    simp only [List.map_nil, List.sum_nil, joinComma]
    show parseDurationGo t [] [] = t + 0
    simp [parseDurationGo]
  | cons p ps ih =>
    intro h t
    cases ps with
    | nil =>
      simp only [List.map_cons, List.map_nil, List.sum_cons, List.sum_nil, joinComma]
      have hcv := h p (by simp) t []
      rw [List.append_nil] at hcv
      rw [hcv]
      show (if ([] : List Char) = [] then t + p.2 else _) = t + (p.2 + 0)
      simp
    | cons q qs =>
      simp only [List.map_cons, joinComma, String.data_append, List.sum_cons]
      rw [List.append_assoc, h p (by simp) t _]
      rw [show ((", " : String).data ++ (joinComma (q.1 :: qs.map Prod.fst)).data)
            = [',', ' '] ++ (joinComma ((q :: qs).map Prod.fst)).data from by simp]
      rw [parseGo_skipList_empty _ [',', ' '] _ (by decide)]
      rw [ih (fun pv hpv => h pv (by simp [List.mem_cons] at hpv ⊢; tauto)) (t + p.2)]
      simp only [List.map_cons, List.sum_cons]
      omega

theorem plural_not_digit (k : Nat) :
    ∀ c ∈ (if k ≠ 1 then ("s" : String) else "").data, c.isDigit = false := by
  by_cases hk : k = 1 <;> simp [hk]

theorem plural_toLower (k : Nat) :
    ∀ c ∈ (if k ≠ 1 then ("s" : String) else "").data, c.toLower = c := by
  by_cases hk : k = 1 <;> simp [hk]

theorem part_toLower (k : Nat) (w : String) (hw : ∀ c ∈ w.data, c.toLower = c)
    (pl : String) (hp : ∀ c ∈ pl.data, c.toLower = c) :
    ∀ c ∈ (natRepr k ++ w ++ pl).data, c.toLower = c := by
  intro c hc
  simp only [String.data_append] at hc
  rcases List.mem_append.mp hc with h1 | h2
  · rcases List.mem_append.mp h1 with h3 | h4
    · exact natRepr_toLower k c h3
    · exact hw c h4
  · exact hp c h2

theorem chunkval_day (k : Nat) :
    ChunkVal (natRepr k ++ " day" ++ (if k ≠ 1 then "s" else "")) (k * 86400) := by
  intro t rest
  rw [show (natRepr k ++ " day" ++ (if k ≠ 1 then "s" else "")).data ++ rest
        = (natRepr k).data
          ++ (' ' :: 'd' :: (['a', 'y'] ++ ((if k ≠ 1 then ("s" : String) else "").data ++ rest)))
      from by simp [String.data_append]]
  rw [parseGo_absorb t _ [] _ (natRepr_digits k), List.nil_append]
  rw [parseGo_skip t _ ' ' _ (by decide) (by decide) (by decide) (by decide) (by decide)]
  rw [parseGo_unit_d t _ _ (natRepr_ne_nil k), digitsToNat_natRepr k]
  rw [show (['a', 'y'] ++ ((if k ≠ 1 then ("s" : String) else "").data ++ rest))
        = (['a', 'y'] ++ (if k ≠ 1 then ("s" : String) else "").data) ++ rest from by simp]
  rw [parseGo_skipList_empty _ _ rest ?_]
  intro c hc
  rcases List.mem_append.mp hc with h1 | h2
  · simp only [List.mem_cons, List.not_mem_nil, or_false] at h1
    rcases h1 with rfl | rfl <;> decide
  · exact plural_not_digit k c h2

theorem chunkval_hour (k : Nat) :
    ChunkVal (natRepr k ++ " hour" ++ (if k ≠ 1 then "s" else "")) (k * 3600) := by
  intro t rest
  rw [show (natRepr k ++ " hour" ++ (if k ≠ 1 then "s" else "")).data ++ rest
        = (natRepr k).data
          ++ (' ' :: 'h' :: (['o', 'u', 'r'] ++ ((if k ≠ 1 then ("s" : String) else "").data ++ rest)))
      from by simp [String.data_append]]
  rw [parseGo_absorb t _ [] _ (natRepr_digits k), List.nil_append]
  rw [parseGo_skip t _ ' ' _ (by decide) (by decide) (by decide) (by decide) (by decide)]
  rw [parseGo_unit_h t _ _ (natRepr_ne_nil k), digitsToNat_natRepr k]
  rw [show (['o', 'u', 'r'] ++ ((if k ≠ 1 then ("s" : String) else "").data ++ rest))
        = (['o', 'u', 'r'] ++ (if k ≠ 1 then ("s" : String) else "").data) ++ rest from by simp]
  rw [parseGo_skipList_empty _ _ rest ?_]
  intro c hc
  rcases List.mem_append.mp hc with h1 | h2
  · simp only [List.mem_cons, List.not_mem_nil, or_false] at h1
    rcases h1 with rfl | rfl | rfl <;> decide
  · exact plural_not_digit k c h2

theorem chunkval_minute (k : Nat) :
    ChunkVal (natRepr k ++ " minute" ++ (if k ≠ 1 then "s" else "")) (k * 60) := by
  intro t rest
  rw [show (natRepr k ++ " minute" ++ (if k ≠ 1 then "s" else "")).data ++ rest
        = (natRepr k).data
          ++ (' ' :: 'm' ::
            (['i', 'n', 'u', 't', 'e'] ++ ((if k ≠ 1 then ("s" : String) else "").data ++ rest)))
      from by simp [String.data_append]]
  rw [parseGo_absorb t _ [] _ (natRepr_digits k), List.nil_append]
  rw [parseGo_skip t _ ' ' _ (by decide) (by decide) (by decide) (by decide) (by decide)]
  rw [parseGo_unit_m t _ _ (natRepr_ne_nil k), digitsToNat_natRepr k]
  rw [show (['i', 'n', 'u', 't', 'e'] ++ ((if k ≠ 1 then ("s" : String) else "").data ++ rest))
        = (['i', 'n', 'u', 't', 'e'] ++ (if k ≠ 1 then ("s" : String) else "").data) ++ rest
      from by simp]
  rw [parseGo_skipList_empty _ _ rest ?_]
  intro c hc
  rcases List.mem_append.mp hc with h1 | h2
  · simp only [List.mem_cons, List.not_mem_nil, or_false] at h1
    rcases h1 with rfl | rfl | rfl | rfl | rfl <;> decide
  · exact plural_not_digit k c h2

theorem chunkval_second (k : Nat) :
    ChunkVal (natRepr k ++ " second" ++ (if k ≠ 1 then "s" else "")) k := by
  intro t rest
  rw [show (natRepr k ++ " second" ++ (if k ≠ 1 then "s" else "")).data ++ rest
        = (natRepr k).data
          ++ (' ' :: 's' ::
            (['e', 'c', 'o', 'n', 'd'] ++ ((if k ≠ 1 then ("s" : String) else "").data ++ rest)))
      from by simp [String.data_append]]
  rw [parseGo_absorb t _ [] _ (natRepr_digits k), List.nil_append]
  rw [parseGo_skip t _ ' ' _ (by decide) (by decide) (by decide) (by decide) (by decide)]
  rw [parseGo_unit_s t _ _ (natRepr_ne_nil k), digitsToNat_natRepr k]
  rw [show (['e', 'c', 'o', 'n', 'd'] ++ ((if k ≠ 1 then ("s" : String) else "").data ++ rest))
        = (['e', 'c', 'o', 'n', 'd'] ++ (if k ≠ 1 then ("s" : String) else "").data) ++ rest
      from by simp]
  rw [parseGo_skipList_empty _ _ rest ?_]
  intro c hc
  rcases List.mem_append.mp hc with h1 | h2
  · simp only [List.mem_cons, List.not_mem_nil, or_false] at h1
    rcases h1 with rfl | rfl | rfl | rfl | rfl <;> decide
  · exact plural_not_digit k c h2

theorem formatCore_parts_mem (d h m s : Nat) :
    ∀ p ∈ (let parts : List String := []
      let parts := if d > 0 then
        parts ++ [natRepr d ++ " day" ++ (if d ≠ 1 then "s" else "")] else parts
      let parts := if h > 0 then
        parts ++ [natRepr h ++ " hour" ++ (if h ≠ 1 then "s" else "")] else parts
      let parts := if m > 0 then
        parts ++ [natRepr m ++ " minute" ++ (if m ≠ 1 then "s" else "")] else parts
      let parts := if s > 0 ∧ parts = [] then
        parts ++ [natRepr s ++ " second" ++ (if s ≠ 1 then "s" else "")] else parts
      parts),
      p = natRepr d ++ " day" ++ (if d = 1 then "" else "s")
      ∨ p = natRepr h ++ " hour" ++ (if h = 1 then "" else "s")
      ∨ p = natRepr m ++ " minute" ++ (if m = 1 then "" else "s")
      ∨ p = natRepr s ++ " second" ++ (if s = 1 then "" else "s") := by
  intro p hp
  simp only at hp
  by_cases h1 : d > 0 <;> by_cases h2 : h > 0 <;> by_cases h3 : m > 0 <;>
    by_cases h4 : s > 0 <;> simp [h1, h2, h3, h4] at hp <;> tauto

theorem formatCore_toLower (d h m s : Nat) :
    ∀ c ∈ (formatCore d h m s).data, c.toLower = c := by
  have hparts := formatCore_parts_mem d h m s
  unfold formatCore
  refine joinComma_forall _ (by decide) (by decide) _ ?_
  intro p hp
  rcases hparts p hp with rfl | rfl | rfl | rfl
  · exact part_toLower d " day" (by decide) _ (by by_cases hk : d = 1 <;> simp [hk])
  · exact part_toLower h " hour" (by decide) _ (by by_cases hk : h = 1 <;> simp [hk])
  · exact part_toLower m " minute" (by decide) _ (by by_cases hk : m = 1 <;> simp [hk])
  · exact part_toLower s " second" (by decide) _ (by by_cases hk : s = 1 <;> simp [hk])

theorem formatCore_eq_join (d h m s : Nat) :
    formatCore d h m s = joinComma (
      (if d > 0 then [natRepr d ++ " day" ++ (if d ≠ 1 then "s" else "")] else [])
      ++ (if h > 0 then [natRepr h ++ " hour" ++ (if h ≠ 1 then "s" else "")] else [])
      ++ (if m > 0 then [natRepr m ++ " minute" ++ (if m ≠ 1 then "s" else "")] else [])
      ++ (if s > 0 ∧ ¬d > 0 ∧ ¬h > 0 ∧ ¬m > 0 then
            [natRepr s ++ " second" ++ (if s ≠ 1 then "s" else "")] else [])) := by
  unfold formatCore
  by_cases h1 : d > 0 <;> by_cases h2 : h > 0 <;> by_cases h3 : m > 0 <;>
    by_cases h4 : s > 0 <;> simp [h1, h2, h3, h4]

theorem parse_join_parts (ps : List (String × Nat))
    (hps : ∀ pv ∈ ps, ChunkVal pv.1 pv.2) :
    parseDurationGo 0 [] (joinComma (ps.map Prod.fst)).data = (ps.map Prod.snd).sum := by
  simpa using joinComma_chunks ps hps 0

theorem parse_formatCore (d h m s : Nat) :
    parse_duration (formatCore d h m s)
      = if d = 0 ∧ h = 0 ∧ m = 0 then s else d * 86400 + h * 3600 + m * 60 := by
  unfold parse_duration
  rw [map_toLower_self _ (formatCore_toLower d h m s), formatCore_eq_join]
  by_cases h1 : d > 0 <;> by_cases h2 : h > 0 <;> by_cases h3 : m > 0
  · rw [if_pos h1, if_pos h2, if_pos h3, if_neg (show ¬(s > 0 ∧ ¬d > 0 ∧ ¬h > 0 ∧ ¬m > 0) from fun hc => hc.2.1 h1)]
    simp only [List.nil_append, List.append_nil, List.singleton_append, List.cons_append]
    rw [show [natRepr d ++ " day" ++ (if d ≠ 1 then "s" else ""),
          natRepr h ++ " hour" ++ (if h ≠ 1 then "s" else ""),
          natRepr m ++ " minute" ++ (if m ≠ 1 then "s" else "")]
        = ([(natRepr d ++ " day" ++ (if d ≠ 1 then "s" else ""), d * 86400),
            (natRepr h ++ " hour" ++ (if h ≠ 1 then "s" else ""), h * 3600),
            (natRepr m ++ " minute" ++ (if m ≠ 1 then "s" else ""), m * 60)].map Prod.fst)
        from rfl]
    rw [parse_join_parts _ (by
      intro pv hpv
      simp only [List.mem_cons, List.not_mem_nil, or_false] at hpv
      rcases hpv with rfl | rfl | rfl
      · exact chunkval_day d
      · exact chunkval_hour h
      · exact chunkval_minute m)]
    rw [if_neg (show ¬(d = 0 ∧ h = 0 ∧ m = 0) from by omega)]
    simp
    omega
  · rw [if_pos h1, if_pos h2, if_neg h3, if_neg (show ¬(s > 0 ∧ ¬d > 0 ∧ ¬h > 0 ∧ ¬m > 0) from fun hc => hc.2.1 h1)]
    simp only [List.nil_append, List.append_nil, List.singleton_append, List.cons_append]
    rw [show [natRepr d ++ " day" ++ (if d ≠ 1 then "s" else ""),
          natRepr h ++ " hour" ++ (if h ≠ 1 then "s" else "")]
        = ([(natRepr d ++ " day" ++ (if d ≠ 1 then "s" else ""), d * 86400),
            (natRepr h ++ " hour" ++ (if h ≠ 1 then "s" else ""), h * 3600)].map Prod.fst)
        from rfl]
    rw [parse_join_parts _ (by
      intro pv hpv
      simp only [List.mem_cons, List.not_mem_nil, or_false] at hpv
      rcases hpv with rfl | rfl
      · exact chunkval_day d
      · exact chunkval_hour h)]
    rw [if_neg (show ¬(d = 0 ∧ h = 0 ∧ m = 0) from by omega)]
    simp
    omega
  · rw [if_pos h1, if_neg h2, if_pos h3, if_neg (show ¬(s > 0 ∧ ¬d > 0 ∧ ¬h > 0 ∧ ¬m > 0) from fun hc => hc.2.1 h1)]
    simp only [List.nil_append, List.append_nil, List.singleton_append, List.cons_append]
    rw [show [natRepr d ++ " day" ++ (if d ≠ 1 then "s" else ""),
          natRepr m ++ " minute" ++ (if m ≠ 1 then "s" else "")]
        = ([(natRepr d ++ " day" ++ (if d ≠ 1 then "s" else ""), d * 86400),
            (natRepr m ++ " minute" ++ (if m ≠ 1 then "s" else ""), m * 60)].map Prod.fst)
        from rfl]
    rw [parse_join_parts _ (by
      intro pv hpv
      simp only [List.mem_cons, List.not_mem_nil, or_false] at hpv
      rcases hpv with rfl | rfl
      · exact chunkval_day d
      · exact chunkval_minute m)]
    rw [if_neg (show ¬(d = 0 ∧ h = 0 ∧ m = 0) from by omega)]
    simp
    omega
  · rw [if_pos h1, if_neg h2, if_neg h3, if_neg (show ¬(s > 0 ∧ ¬d > 0 ∧ ¬h > 0 ∧ ¬m > 0) from fun hc => hc.2.1 h1)]
    simp only [List.nil_append, List.append_nil]
    rw [show [natRepr d ++ " day" ++ (if d ≠ 1 then "s" else "")]
        = ([(natRepr d ++ " day" ++ (if d ≠ 1 then "s" else ""), d * 86400)].map Prod.fst)
        from rfl]
    rw [parse_join_parts _ (by
      intro pv hpv
      simp only [List.mem_cons, List.not_mem_nil, or_false] at hpv
      rcases hpv with rfl
      exact chunkval_day d)]
    rw [if_neg (show ¬(d = 0 ∧ h = 0 ∧ m = 0) from by omega)]
    simp
    omega
  · rw [if_neg h1, if_pos h2, if_pos h3, if_neg (show ¬(s > 0 ∧ ¬d > 0 ∧ ¬h > 0 ∧ ¬m > 0) from fun hc => hc.2.2.1 h2)]
    simp only [List.nil_append, List.append_nil, List.singleton_append, List.cons_append]
    rw [show [natRepr h ++ " hour" ++ (if h ≠ 1 then "s" else ""),
          natRepr m ++ " minute" ++ (if m ≠ 1 then "s" else "")]
        = ([(natRepr h ++ " hour" ++ (if h ≠ 1 then "s" else ""), h * 3600),
            (natRepr m ++ " minute" ++ (if m ≠ 1 then "s" else ""), m * 60)].map Prod.fst)
        from rfl]
    rw [parse_join_parts _ (by
      intro pv hpv
      simp only [List.mem_cons, List.not_mem_nil, or_false] at hpv
      rcases hpv with rfl | rfl
      · exact chunkval_hour h
      · exact chunkval_minute m)]
    rw [if_neg (show ¬(d = 0 ∧ h = 0 ∧ m = 0) from by omega)]
    simp
    omega
  · rw [if_neg h1, if_pos h2, if_neg h3, if_neg (show ¬(s > 0 ∧ ¬d > 0 ∧ ¬h > 0 ∧ ¬m > 0) from fun hc => hc.2.2.1 h2)]
    simp only [List.nil_append, List.append_nil]
    rw [show [natRepr h ++ " hour" ++ (if h ≠ 1 then "s" else "")]
        = ([(natRepr h ++ " hour" ++ (if h ≠ 1 then "s" else ""), h * 3600)].map Prod.fst)
        from rfl]
    rw [parse_join_parts _ (by
      intro pv hpv
      simp only [List.mem_cons, List.not_mem_nil, or_false] at hpv
      rcases hpv with rfl
      exact chunkval_hour h)]
    rw [if_neg (show ¬(d = 0 ∧ h = 0 ∧ m = 0) from by omega)]
    simp
    omega
  · rw [if_neg h1, if_neg h2, if_pos h3, if_neg (show ¬(s > 0 ∧ ¬d > 0 ∧ ¬h > 0 ∧ ¬m > 0) from fun hc => hc.2.2.2 h3)]
    simp only [List.nil_append, List.append_nil]
    rw [show [natRepr m ++ " minute" ++ (if m ≠ 1 then "s" else "")]
        = ([(natRepr m ++ " minute" ++ (if m ≠ 1 then "s" else ""), m * 60)].map Prod.fst)
        from rfl]
    rw [parse_join_parts _ (by
      intro pv hpv
      simp only [List.mem_cons, List.not_mem_nil, or_false] at hpv
      rcases hpv with rfl
      exact chunkval_minute m)]
    rw [if_neg (show ¬(d = 0 ∧ h = 0 ∧ m = 0) from by omega)]
    simp
    omega
  · rw [if_neg h1, if_neg h2, if_neg h3]
    simp only [List.nil_append, List.append_nil]
    by_cases h4 : s > 0
    · rw [if_pos (show s > 0 ∧ ¬d > 0 ∧ ¬h > 0 ∧ ¬m > 0 from ⟨h4, h1, h2, h3⟩)]
      rw [show [natRepr s ++ " second" ++ (if s ≠ 1 then "s" else "")]
          = ([(natRepr s ++ " second" ++ (if s ≠ 1 then "s" else ""), s)].map Prod.fst)
          from rfl]
      rw [parse_join_parts _ (by
        intro pv hpv
        simp only [List.mem_cons, List.not_mem_nil, or_false] at hpv
        rcases hpv with rfl
        exact chunkval_second s)]
      rw [if_pos (show d = 0 ∧ h = 0 ∧ m = 0 from ⟨by omega, by omega, by omega⟩)]
      simp
    · rw [if_neg (show ¬(s > 0 ∧ ¬d > 0 ∧ ¬h > 0 ∧ ¬m > 0) from fun hc => h4 hc.1)]
      rw [show ([] : List String) = (([] : List (String × Nat)).map Prod.fst) from rfl]
      rw [parse_join_parts [] (by intro pv hpv; exact absurd hpv (List.not_mem_nil pv))]
      rw [if_pos (show d = 0 ∧ h = 0 ∧ m = 0 from ⟨by omega, by omega, by omega⟩)]
      simp
      omega

/-- Parsing the formatted rendering of `n` seconds gives back `n` when `n` is
below one minute, and `n` rounded down to a whole minute otherwise. -/
theorem parse_format_duration (n : Nat) :
    parse_duration (format_duration n) = if n < 60 then n else n - n % 60 := by
  rw [format_duration_eq_core, parse_formatCore]
  by_cases hn : n < 60
  · rw [if_pos (by omega), if_pos hn]
    omega
  · rw [if_neg (by omega), if_neg hn]
    omega

/-! ## Claim theorems for the duration utilities -/

theorem formatCore_sec_irrelevant (d h m s : Nat) (hne : ¬(d = 0 ∧ h = 0 ∧ m = 0)) :
    formatCore d h m s = formatCore d h m 0 := by
  rw [formatCore_eq_join, formatCore_eq_join]
  rw [if_neg (show ¬(s > 0 ∧ ¬d > 0 ∧ ¬h > 0 ∧ ¬m > 0) from by omega),
    if_neg (show ¬((0 : Nat) > 0 ∧ ¬d > 0 ∧ ¬h > 0 ∧ ¬m > 0) from by omega)]

/-- C2, counterexample: the round trip does not reproduce the total seconds for
the well-formed input "90s": 90 seconds format to "1 minute", which re-parses
to 60, not 90. -/
theorem C2_roundtrip_counterexample :
    parse_duration "90s" = 90
      ∧ format_duration (parse_duration "90s") = "1 minute"
      ∧ parse_duration (format_duration (parse_duration "90s")) = 60
      ∧ parse_duration (format_duration (parse_duration "90s")) ≠ parse_duration "90s" := by
  refine ⟨by decide, by decide, by decide, by decide⟩

/-- C2 (amended): for every duration string s, re-parsing
format_duration(parse_duration(s)) yields parse_duration(s) when that total is
below one minute, and otherwise yields the total rounded down to a whole
minute (the seconds remainder is dropped because format_duration omits the
seconds component once a larger unit is present).  In particular the round
trip is the identity exactly on totals that are < 60 or multiples of 60, such
as the spec's example "1d12h30m" (131400 seconds). -/
theorem C2_roundtrip_floor_minute (s : String) :
    parse_duration (format_duration (parse_duration s))
      = if parse_duration s < 60 then parse_duration s
        else parse_duration s - parse_duration s % 60 :=
  parse_format_duration (parse_duration s)

/-- C5: parse_duration scans left to right accumulating digits, adds
digits × unit-seconds on each unit letter (d=86400, h=3600, m=60, s=1), adds
trailing digits with no unit letter as raw seconds, silently skips
unrecognized characters, yields 0 when no digit occurs at all, and evaluates
as documented on "2h30m", "90s", "" and "abc". -/
theorem C5_parse_duration_spec :
    (∀ t cur c rest, c.isDigit = true →
      parseDurationGo t cur (c :: rest) = parseDurationGo t (cur ++ [c]) rest)
    ∧ (∀ t cur rest, cur ≠ [] →
      parseDurationGo t cur ('d' :: rest) = parseDurationGo (t + digitsToNat cur * 86400) [] rest)
    ∧ (∀ t cur rest, cur ≠ [] →
      parseDurationGo t cur ('h' :: rest) = parseDurationGo (t + digitsToNat cur * 3600) [] rest)
    ∧ (∀ t cur rest, cur ≠ [] →
      parseDurationGo t cur ('m' :: rest) = parseDurationGo (t + digitsToNat cur * 60) [] rest)
    ∧ (∀ t cur rest, cur ≠ [] →
      parseDurationGo t cur ('s' :: rest) = parseDurationGo (t + digitsToNat cur) [] rest)
    ∧ (∀ t cur c rest, c.isDigit = false → c ≠ 'd' → c ≠ 'h' → c ≠ 'm' → c ≠ 's' →
      parseDurationGo t cur (c :: rest) = parseDurationGo t cur rest)
    ∧ (∀ t cur, parseDurationGo t cur [] = if cur = [] then t else t + digitsToNat cur)
    ∧ (∀ s : String, (∀ c ∈ s.data, c.toLower.isDigit = false) → parse_duration s = 0)
    ∧ parse_duration "2h30m" = 9000
    ∧ parse_duration "90s" = 90
    ∧ parse_duration "" = 0
    ∧ parse_duration "abc" = 0 := by
  refine ⟨parseGo_digit, parseGo_unit_d, parseGo_unit_h, parseGo_unit_m, parseGo_unit_s,
    parseGo_skip, fun t cur => rfl, ?_, by decide, by decide, by decide, by decide⟩
  intro s hs
  unfold parse_duration
  have hjunk : ∀ c ∈ s.data.map Char.toLower, c.isDigit = false := by
    intro c hc
    rcases List.mem_map.mp hc with ⟨x, hx, rfl⟩
    exact hs x hx
  have h0 := parseGo_skipList_empty 0 (s.data.map Char.toLower) [] hjunk
  simpa [parseDurationGo] using h0

theorem C5_parse_duration_spec_witness :
    parseDurationGo 0 [] ['9'] = parseDurationGo 0 ['9'] []
    ∧ parseDurationGo 0 ['1'] ['d'] = parseDurationGo (0 + digitsToNat ['1'] * 86400) [] []
    ∧ parseDurationGo 0 ['1'] ['h'] = parseDurationGo (0 + digitsToNat ['1'] * 3600) [] []
    ∧ parseDurationGo 0 ['1'] ['m'] = parseDurationGo (0 + digitsToNat ['1'] * 60) [] []
    ∧ parseDurationGo 0 ['1'] ['s'] = parseDurationGo (0 + digitsToNat ['1']) [] []
    ∧ parseDurationGo 0 ['1'] ['x'] = parseDurationGo 0 ['1'] []
    ∧ parse_duration "abc" = 0 :=
  ⟨C5_parse_duration_spec.1 0 [] '9' [] (by decide),
   C5_parse_duration_spec.2.1 0 ['1'] [] (by decide),
   C5_parse_duration_spec.2.2.1 0 ['1'] [] (by decide),
   C5_parse_duration_spec.2.2.2.1 0 ['1'] [] (by decide),
   C5_parse_duration_spec.2.2.2.2.1 0 ['1'] [] (by decide),
   C5_parse_duration_spec.2.2.2.2.2.1 0 ['1'] 'x' []
     (by decide) (by decide) (by decide) (by decide) (by decide),
   C5_parse_duration_spec.2.2.2.2.2.2.2.1 "abc" (by decide)⟩

/-- C6: format_duration renders a seconds value as a comma-joined,
largest-unit-first day/hour/minute listing with correct pluralization; a
seconds component appears exactly when the value is positive and below one
minute (once a larger unit is present the seconds remainder is dropped, so
changing the value to a whole minute does not change the output); in
particular format_duration 0 = "", format_duration 45 = "45 seconds" and
format_duration 90 = "1 minute". -/
theorem C6_format_duration_spec :
    format_duration 0 = ""
    ∧ format_duration 45 = "45 seconds"
    ∧ format_duration 90 = "1 minute"
    ∧ format_duration 1 = "1 second"
    ∧ format_duration 86400 = "1 day"
    ∧ format_duration 172800 = "2 days"
    ∧ format_duration 90061 = "1 day, 1 hour, 1 minute"
    ∧ format_duration 131400 = "1 day, 12 hours, 30 minutes"
    ∧ (∀ n, 0 < n → n < 60 →
        format_duration n = natRepr n ++ " second" ++ (if n ≠ 1 then "s" else ""))
    ∧ (∀ n, 60 ≤ n → format_duration n = format_duration (n - n % 60)) := by
  refine ⟨by decide, by decide, by decide, by decide, by decide, by decide, by decide,
    by decide, ?_, ?_⟩
  · intro n hpos hlt
    rw [format_duration_eq_core]
    have e1 : n / 86400 = 0 := by omega
    have e2 : n % 86400 / 3600 = 0 := by omega
    have e3 : n % 86400 % 3600 / 60 = 0 := by omega
    have e4 : n % 86400 % 3600 % 60 = n := by omega
    rw [e1, e2, e3, e4, formatCore_eq_join]
    rw [if_neg (show ¬(0 : Nat) > 0 from by omega), if_neg (show ¬(0 : Nat) > 0 from by omega),
      if_neg (show ¬(0 : Nat) > 0 from by omega),
      if_pos (show n > 0 ∧ ¬(0 : Nat) > 0 ∧ ¬(0 : Nat) > 0 ∧ ¬(0 : Nat) > 0 from
        ⟨hpos, by omega, by omega, by omega⟩)]
    simp [joinComma]
  · intro n hge
    rw [format_duration_eq_core, format_duration_eq_core]
    have e1 : (n - n % 60) / 86400 = n / 86400 := by omega
    have e2 : (n - n % 60) % 86400 / 3600 = n % 86400 / 3600 := by omega
    have e3 : (n - n % 60) % 86400 % 3600 / 60 = n % 86400 % 3600 / 60 := by omega
    have e4 : (n - n % 60) % 86400 % 3600 % 60 = 0 := by omega
    rw [e1, e2, e3, e4]
    exact formatCore_sec_irrelevant _ _ _ _ (by omega)

theorem C6_format_duration_spec_witness :
    format_duration 45 = natRepr 45 ++ " second" ++ (if 45 ≠ 1 then "s" else "")
    ∧ format_duration 90 = format_duration (90 - 90 % 60) :=
  ⟨C6_format_duration_spec.2.2.2.2.2.2.2.2.1 45 (by decide) (by decide),
   C6_format_duration_spec.2.2.2.2.2.2.2.2.2 90 (by decide)⟩

/-- C10: the duration formatter defined locally in the Admin command group
(format_timespan in cogs/admin.py) agrees with the shared formatter
(format_duration in utils/role_timers.py) on every non-negative integer
number of seconds. -/
theorem C10_format_timespan_eq_format_duration (n : Nat) :
    format_timespan n = format_duration n := by
  rw [format_timespan_eq_core, format_duration_eq_core]
  have e1 : n / 60 / 60 / 24 = n / 86400 := by omega
  have e2 : n / 60 / 60 % 24 = n % 86400 / 3600 := by omega
  have e3 : n / 60 % 60 = n % 86400 % 3600 / 60 := by omega
  have e4 : n % 60 = n % 86400 % 3600 % 60 := by omega
  rw [e1, e2, e3, e4]

/-- C8: display-name normalization: a bracketed [PREFIX] [Name] [ID] display
name keeps only the trailing two bracket groups; a name whose text after the
first separator (leading separator stripped) still contains a further
separator keeps that remainder; a name containing none of the separators
|, /, [ falls back to "mention - display name" unchanged; the two spec
examples evaluate as documented. -/
theorem C8_format_member_display_spec :
    format_member_display "<mention>" "[EMS] [John Doe] [1234]"
      = "<mention> - [John Doe] [1234]"
    ∧ format_member_display "<mention>" "PREFIX | Jane Roe | 5678"
      = "<mention> - Jane Roe | 5678"
    ∧ (∀ mention d : String, (∀ c ∈ d.data, c ≠ '|' ∧ c ≠ '/' ∧ c ≠ '[') →
        format_member_display mention d = mention ++ " - " ++ d) := by
  refine ⟨by decide, by decide, ?_⟩
  intro mention d hd
  have hbr : bracketGroup d.data = none := by
    unfold bracketGroup
    rcases hdw : d.data.dropWhile Char.isWhitespace with _ | ⟨c, r⟩
    · rfl
    · have hc : c ∈ d.data := (List.dropWhile_sublist _).subset (hdw ▸ List.mem_cons_self c r)
      have hne : c ≠ '[' := (hd c hc).2.2
      split
      · rename_i heq
        cases heq
        exact absurd rfl hne
      · rfl
  have hsep : firstSepIdx d.data = none := by
    unfold firstSepIdx
    have h1 : d.data.findIdx? (fun c => c == '|') = none := by
      rw [List.findIdx?_eq_none_iff]
      intro x hx
      simp [(hd x hx).1]
    have h2 : d.data.findIdx? (fun c => c == '/') = none := by
      rw [List.findIdx?_eq_none_iff]
      intro x hx
      simp [(hd x hx).2.1]
    have h3 : d.data.findIdx? (fun c => c == '[') = none := by
      rw [List.findIdx?_eq_none_iff]
      intro x hx
      simp [(hd x hx).2.2]
    simp [h1, h2, h3]
  rw [format_member_display, hbr, hsep]

theorem C8_format_member_display_spec_witness :
    format_member_display "<mention>" "John Smith" = "<mention>" ++ " - " ++ "John Smith" :=
  C8_format_member_display_spec.2.2 "<mention>" "John Smith" (by decide)

/-- C9: the mid-level staff list for a department consists of exactly the
members who hold the department's base role and hold none of that
department's three leadership role patterns (curator, head, deputy head),
and it is sorted case-insensitively by display name. -/
theorem C9_mid_staff_spec (guild : List DiscordMember) (deptRoleId : Nat) (short : String) :
    (department_mid_staff guild deptRoleId short).Perm
      (guild.filter (fun m => (m.roles.any (fun r => r.id == deptRoleId))
        && !isLeaderFor short m))
    ∧ (department_mid_staff guild deptRoleId short).Sorted displayKeyLE
    ∧ (∀ m, m ∈ department_mid_staff guild deptRoleId short ↔
        m ∈ guild ∧ (∃ r ∈ m.roles, r.id = deptRoleId) ∧ isLeaderFor short m = false) := by
  have hperm : (department_mid_staff guild deptRoleId short).Perm
      (guild.filter (fun m => (m.roles.any (fun r => r.id == deptRoleId))
        && !isLeaderFor short m)) := by
    simp only [department_mid_staff, roleMembers]
    refine (List.perm_insertionSort displayKeyLE _).trans ?_
    rw [List.filter_filter]
    exact List.Perm.of_eq (List.filter_congr (fun a _ => Bool.and_comm _ _))
  have hsorted : (department_mid_staff guild deptRoleId short).Sorted displayKeyLE := by
    simp only [department_mid_staff]
    exact List.sorted_insertionSort displayKeyLE _
  refine ⟨hperm, hsorted, ?_⟩
  intro m
  rw [hperm.mem_iff, List.mem_filter]
  simp only [Bool.and_eq_true, List.any_eq_true, beq_iff_eq, Bool.not_eq_true']

/-- C3: granting a timed role to a (member, role) pair that already has an
active grant fails with the duplicate-grant validation error, writes nothing
and issues no API call; granting a role whose rank is at or above the bot's
top role fails with the hierarchy validation error, likewise without calling
the role-assignment API or writing a record; and add_timed_role preserves
the at-most-one-active-grant-per-(server, member, role) invariant. -/
theorem C3_add_timed_role_spec
    (db : TimedRoleDb) (member : MemberInfo) (role botTop : RoleInfo)
    (duration addedBy : Nat) (reason : Option String) (ar nu : Bool)
    (nc : Option Nat) (nr : Option (List Nat)) (now : Nat) :
    ((∃ r ∈ TimedRole.get_active_roles_for_user db member.id now, r.role_id = role.id) →
      (add_timed_role db member role botTop duration addedBy reason ar nu nc nr now).result
          = Except.error
            ("This member already has '" ++ role.name ++ "' as an active timed role.")
      ∧ (add_timed_role db member role botTop duration addedBy reason ar nu nc nr now).db = db
      ∧ (add_timed_role db member role botTop duration addedBy reason ar nu nc nr now).calls = [])
    ∧ ((¬∃ r ∈ TimedRole.get_active_roles_for_user db member.id now, r.role_id = role.id) →
       botTop.rank ≤ role.rank →
      (add_timed_role db member role botTop duration addedBy reason ar nu nc nr now).result
          = Except.error
            ("Cannot manage the role '" ++ role.name
              ++ "' due to role hierarchy. Move the bot's role above this role.")
      ∧ (add_timed_role db member role botTop duration addedBy reason ar nu nc nr now).db = db
      ∧ (add_timed_role db member role botTop duration addedBy reason ar nu nc nr now).calls = [])
    ∧ (ActiveDupFree db.rows now →
      ActiveDupFree
        (add_timed_role db member role botTop duration addedBy reason ar nu nc nr now).db.rows
        now) := by
  refine ⟨?_, ?_, ?_⟩
  · rintro ⟨r, hr, hrid⟩
    have hany : (TimedRole.get_active_roles_for_user db member.id now).any
        (fun r => r.role_id == role.id) = true :=
      List.any_eq_true.mpr ⟨r, hr, by simp [hrid]⟩
    refine ⟨?_, ?_, ?_⟩ <;> simp [add_timed_role, hany]
  · intro hno hrank
    have hany : (TimedRole.get_active_roles_for_user db member.id now).any
        (fun r => r.role_id == role.id) = false := by
      rw [Bool.eq_false_iff]
      intro hcontra
      rcases List.any_eq_true.mp hcontra with ⟨x, hx, hpx⟩
      exact hno ⟨x, hx, by simpa using hpx⟩
    refine ⟨?_, ?_, ?_⟩ <;> simp [add_timed_role, hany, hrank]
  · intro hinv
    by_cases hany : (TimedRole.get_active_roles_for_user db member.id now).any
        (fun r => r.role_id == role.id) = true
    · simpa [add_timed_role, hany] using hinv
    · by_cases hrank : botTop.rank ≤ role.rank
      · simpa [add_timed_role, hany, hrank] using hinv
      · have hres :
            (add_timed_role db member role botTop duration addedBy reason ar nu nc nr now).db.rows
              = db.rows ++
                  [{ id := db.nextId, guild_id := member.guild_id,
                     user_id := member.id, role_id := role.id,
                     expires_at := now + duration, added_by := addedBy, reason := reason,
                     auto_remove := ar, notify_user := nu, notify_channel_id := nc,
                     notify_role_ids :=
                       match nr with
                       | some (x :: xs) => some (joinCommaIds (x :: xs))
                       | _ => none }] := by
          simp [add_timed_role, hany, hrank, TimedRole.model_add_timed_role]
        rw [hres]
        unfold ActiveDupFree at hinv ⊢
        rw [List.pairwise_append]
        refine ⟨hinv, List.pairwise_singleton _ _, ?_⟩
        intro a ha b hb
        simp only [List.mem_singleton] at hb
        subst hb
        rintro ⟨hactA, _, _, hu, hrid⟩
        simp only at hu hrid
        have hamem : a ∈ TimedRole.get_active_roles_for_user db member.id now := by
          unfold TimedRole.get_active_roles_for_user
          rw [(List.perm_insertionSort _ _).mem_iff, List.mem_filter]
          exact ⟨ha, by simp [hu, hactA]⟩
        exact hany (List.any_eq_true.mpr ⟨a, hamem, by simp [hrid]⟩)

theorem C3_add_timed_role_spec_witness :
    (add_timed_role ⟨[⟨1, 10, 20, 30, 1000, 40, none, true, true, none, none⟩], 2⟩
        ⟨20, 10, [30]⟩ ⟨30, "VIP", 5⟩ ⟨99, "BotTop", 9⟩ 100 40 none true true none none 500).result
      = Except.error "This member already has 'VIP' as an active timed role."
    ∧ (add_timed_role ⟨[], 1⟩
        ⟨21, 10, []⟩ ⟨31, "High", 9⟩ ⟨99, "BotTop", 9⟩ 100 40 none true true none none 500).result
      = Except.error
          "Cannot manage the role 'High' due to role hierarchy. Move the bot's role above this role."
    ∧ ActiveDupFree
        (add_timed_role ⟨[⟨1, 10, 20, 30, 1000, 40, none, true, true, none, none⟩], 2⟩
          ⟨22, 10, []⟩ ⟨31, "Other", 5⟩ ⟨99, "BotTop", 9⟩ 100 40 none true true none none
          500).db.rows 500 :=
  ⟨((C3_add_timed_role_spec ⟨[⟨1, 10, 20, 30, 1000, 40, none, true, true, none, none⟩], 2⟩
      ⟨20, 10, [30]⟩ ⟨30, "VIP", 5⟩ ⟨99, "BotTop", 9⟩ 100 40 none true true none none 500).1
      ⟨⟨1, 10, 20, 30, 1000, 40, none, true, true, none, none⟩, by decide, rfl⟩).1,
   ((C3_add_timed_role_spec ⟨[], 1⟩
      ⟨21, 10, []⟩ ⟨31, "High", 9⟩ ⟨99, "BotTop", 9⟩ 100 40 none true true none none 500).2.1
      (by decide) (by decide)).1,
   (C3_add_timed_role_spec ⟨[⟨1, 10, 20, 30, 1000, 40, none, true, true, none, none⟩], 2⟩
      ⟨22, 10, []⟩ ⟨31, "Other", 5⟩ ⟨99, "BotTop", 9⟩ 100 40 none true true none none 500).2.2
      (by decide)⟩

/-- C4: processing one expired grant record: when the guild, member and role
all resolve, auto_remove is set and the member still holds the role, the
trace contains the role-removal call with audit reason "Timed role expired"
and ends by deleting the tracking record; when the member no longer holds
the role, no role-removal call is issued and the record is still deleted;
when the guild cannot be resolved, the member is gone, or the role no longer
exists, the trace is exactly the record deletion (no role operation). -/
theorem C4_process_expired_role_spec (w : ExpiredWorld) (rec : TimedRoleRec) :
    (¬(w.guildExists = true ∧ w.memberExists = true ∧ w.roleExists = true) →
      process_expired_role w rec = [BotAction.deleteRecord rec.id])
    ∧ (w.guildExists = true → w.memberExists = true → w.roleExists = true →
       rec.auto_remove = true → w.memberHasRole = true →
      BotAction.removeRole rec.user_id rec.role_id "Timed role expired"
          ∈ process_expired_role w rec
      ∧ (process_expired_role w rec).getLast? = some (BotAction.deleteRecord rec.id))
    ∧ (w.guildExists = true → w.memberExists = true → w.roleExists = true →
       w.memberHasRole = false →
      (∀ u r s, BotAction.removeRole u r s ∉ process_expired_role w rec)
      ∧ (process_expired_role w rec).getLast? = some (BotAction.deleteRecord rec.id)) := by
  refine ⟨?_, ?_, ?_⟩
  · intro hmiss
    cases hg : w.guildExists
    · simp [process_expired_role, hg]
    · cases hm : w.memberExists
      · simp [process_expired_role, hg, hm]
      · cases hr : w.roleExists
        · simp [process_expired_role, hg, hm, hr]
        · exact absurd ⟨hg, hm, hr⟩ hmiss
  · intro hg hm hr har hhas
    constructor
    · simp [process_expired_role, hg, hm, hr, har, hhas]
    · simp only [process_expired_role, hg, hm, hr, Bool.not_true, Bool.false_eq_true,
        if_false, ite_false]
      exact List.getLast?_concat _
  · intro hg hm hr hhas
    constructor
    · intro u r s
      simp [process_expired_role, hg, hm, hr, hhas]
      by_cases h1 : rec.notify_user <;> by_cases h2 : w.dmDeliverable <;>
        by_cases h3 : w.channelSendable <;> cases hnc : rec.notify_channel_id <;>
        simp [h1, h2, h3, hnc]
    · simp only [process_expired_role, hg, hm, hr, Bool.not_true, Bool.false_eq_true,
        if_false, ite_false]
      exact List.getLast?_concat _

theorem C4_process_expired_role_spec_witness :
    (process_expired_role ⟨false, true, true, true, true, true, "VIP"⟩
        ⟨1, 10, 20, 30, 100, 40, none, true, true, none, none⟩
      = [BotAction.deleteRecord 1])
    ∧ (BotAction.removeRole 20 30 "Timed role expired"
        ∈ process_expired_role ⟨true, true, true, true, true, true, "VIP"⟩
            ⟨1, 10, 20, 30, 100, 40, none, true, true, none, none⟩
      ∧ (process_expired_role ⟨true, true, true, true, true, true, "VIP"⟩
            ⟨1, 10, 20, 30, 100, 40, none, true, true, none, none⟩).getLast?
          = some (BotAction.deleteRecord 1))
    ∧ ((∀ u r s, BotAction.removeRole u r s
        ∉ process_expired_role ⟨true, true, true, false, true, true, "VIP"⟩
            ⟨2, 10, 20, 30, 100, 40, none, true, true, none, none⟩)
      ∧ (process_expired_role ⟨true, true, true, false, true, true, "VIP"⟩
            ⟨2, 10, 20, 30, 100, 40, none, true, true, none, none⟩).getLast?
          = some (BotAction.deleteRecord 2)) :=
  ⟨(C4_process_expired_role_spec ⟨false, true, true, true, true, true, "VIP"⟩
      ⟨1, 10, 20, 30, 100, 40, none, true, true, none, none⟩).1 (by decide),
   (C4_process_expired_role_spec ⟨true, true, true, true, true, true, "VIP"⟩
      ⟨1, 10, 20, 30, 100, 40, none, true, true, none, none⟩).2.1
      rfl rfl rfl rfl rfl,
   (C4_process_expired_role_spec ⟨true, true, true, false, true, true, "VIP"⟩
      ⟨2, 10, 20, 30, 100, 40, none, true, true, none, none⟩).2.2
      rfl rfl rfl rfl⟩

theorem msgHead_long (e : SlashErrKind) : 40 ≤ (msgHead e).data.length := by
  cases e <;> simp only [msgHead] <;> decide

theorem msgHead_take40_inj (e1 e2 : SlashErrKind) (hne : e1.tag ≠ e2.tag) :
    (msgHead e1).data.take 40 ≠ (msgHead e2).data.take 40 := by
  cases e1 <;> cases e2 <;> first
    | exact absurd rfl hne
    | (simp only [msgHead]; decide)

theorem respondMessage_handler (e : SlashErrKind) :
    respondMessage? (on_slash_command_error false false (SlashErr.plain e))
      = some (msgHead e ++ msgTail e) := by
  cases e <;> rfl

theorem userMessage_inj (e1 e2 : SlashErrKind)
    (h : respondMessage? (on_slash_command_error false false (SlashErr.plain e1))
      = respondMessage? (on_slash_command_error false false (SlashErr.plain e2))) :
    e1.tag = e2.tag := by
  rw [respondMessage_handler, respondMessage_handler] at h
  have hmsg : msgHead e1 ++ msgTail e1 = msgHead e2 ++ msgTail e2 := by
    exact Option.some.inj h
  by_contra hne
  have hdata : (msgHead e1).data ++ (msgTail e1).data
      = (msgHead e2).data ++ (msgTail e2).data := by
    have := congrArg String.data hmsg
    simpa using this
  have h40 := congrArg (List.take 40) hdata
  rw [List.take_append_of_le_length (msgHead_long e1),
    List.take_append_of_le_length (msgHead_long e2)] at h40
  exact msgHead_take40_inj e1 e2 hne h40

/-- C7: the command-error listener defers entirely to a command's own error
hook; otherwise it unwraps a wrapped original error and maps each error
kind — cooldown, no-DM-allowed, user-missing-permissions,
bot-missing-permissions, forbidden, not-found, generic check failure,
unhandled — to its documented user-facing ephemeral message text; those
texts are pairwise distinct across kinds (for any parameter values); and an
error-level log entry carrying a traceback is emitted only in the unhandled
case. -/
theorem C7_error_handler_spec :
    (∀ rd err, on_slash_command_error true rd err = [])
    ∧ (∀ hn rd e, on_slash_command_error hn rd (SlashErr.wrapped e)
        = on_slash_command_error hn rd (SlashErr.plain e))
    ∧ (∀ s, on_slash_command_error false false (SlashErr.plain (SlashErrKind.commandOnCooldown s))
        = [HandlerAction.respond ("This command is on cooldown. Please try again in "
            ++ (natRepr s ++ " seconds.")) true])
    ∧ on_slash_command_error false false (SlashErr.plain SlashErrKind.noPrivateMessage)
        = [HandlerAction.respond "This command cannot be used in private messages." true]
    ∧ (∀ d, on_slash_command_error false false (SlashErr.plain (SlashErrKind.missingPermissions d))
        = [HandlerAction.respond
            ("You don't have the required permissions to use this command: " ++ d) true])
    ∧ (∀ d, on_slash_command_error false false
          (SlashErr.plain (SlashErrKind.botMissingPermissions d))
        = [HandlerAction.respond
            ("I don't have the required permissions to execute this command: " ++ d) true])
    ∧ on_slash_command_error false false (SlashErr.plain SlashErrKind.forbidden)
        = [HandlerAction.respond
            "I don't have permission to perform this action. Please check my role permissions."
            true,
           HandlerAction.logError false]
    ∧ on_slash_command_error false false (SlashErr.plain SlashErrKind.notFound)
        = [HandlerAction.respond
            "The requested resource was not found. This could be a channel, message, or user that no longer exists."
            true]
    ∧ on_slash_command_error false false (SlashErr.plain SlashErrKind.checkFailure)
        = [HandlerAction.respond "You don't have permission to use this command." true]
    ∧ (∀ d rd, on_slash_command_error false rd (SlashErr.plain (SlashErrKind.unhandled d))
        = [HandlerAction.logError false, HandlerAction.logError true]
          ++ (if rd then []
              else [HandlerAction.respond
                "An error occurred while executing this command. The error has been logged."
                true]))
    ∧ (∀ e1 e2 : SlashErrKind,
        respondMessage? (on_slash_command_error false false (SlashErr.plain e1))
          = respondMessage? (on_slash_command_error false false (SlashErr.plain e2)) →
        e1.tag = e2.tag)
    ∧ (∀ rd e, HandlerAction.logError true ∈ on_slash_command_error false rd (SlashErr.plain e) →
        ∃ d, e = SlashErrKind.unhandled d) := by
  refine ⟨fun rd err => rfl, fun hn rd e => rfl, fun s => rfl, rfl, fun d => rfl, fun d => rfl,
    rfl, rfl, rfl, fun d rd => rfl, userMessage_inj, ?_⟩
  intro rd e h
  cases e
  case unhandled d => exact ⟨d, rfl⟩
  all_goals revert h
  all_goals simp [on_slash_command_error, unwrapOriginal]

theorem C7_error_handler_spec_witness :
    SlashErrKind.checkFailure.tag = SlashErrKind.checkFailure.tag
    ∧ (∃ d, SlashErrKind.unhandled "boom" = SlashErrKind.unhandled d) :=
  ⟨C7_error_handler_spec.2.2.2.2.2.2.2.2.2.2.1 SlashErrKind.checkFailure
      SlashErrKind.checkFailure rfl,
   C7_error_handler_spec.2.2.2.2.2.2.2.2.2.2.2 false (SlashErrKind.unhandled "boom")
      (by decide)⟩

/-- C1 (code evaluation at the failing point): both declared schedules carry
a 30-minute period and defer their first tick until the connection is fully
ready, and the staff-listings cog starts its loop in __init__ and cancels
exactly that loop on unload; but the role-timer cog's cog_unload calls
.cancel() on check_timed_roles — a plain coroutine method, not the
role_check_task loop — so unloading raises AttributeError and cancels no
schedule, and role_check_task is never started anywhere in the repository. -/
theorem C1_schedule_cancellation_bug :
    role_check_task.periodMinutes = 30 ∧ role_check_task.waitsUntilReady = true
    ∧ update_staff_listings.periodMinutes = 30 ∧ update_staff_listings.waitsUntilReady = true
    ∧ StaffListings.unload_cancel_target = StaffListingsAttr.update_staff_listings
    ∧ StaffListings.cog_unload = Except.ok ()
    ∧ StaffListings.loop_started = true
    ∧ RoleTimer.unload_cancel_target ≠ RoleTimerAttr.role_check_task
    ∧ RoleTimerAttr.isTaskLoop RoleTimer.unload_cancel_target = false
    ∧ RoleTimer.cog_unload = Except.error "AttributeError"
    ∧ RoleTimer.loop_started = false :=
  ⟨rfl, rfl, rfl, rfl, rfl, rfl, rfl, by decide, rfl, rfl, rfl⟩
